import Mathlib

/-!
Verification of the session controller (`useSocketRun`) of the mine_modder
frontend: the socket event handlers (`connected`, `error`, `run_started`,
`progress`, `mod_ready`, `chat_response`) and the two user intents
(`startRun`, `sendChat`), embedded shallowly over a model of the JavaScript
values that arrive in socket payloads.
-/

namespace MineModder

/-- Model of the JavaScript values that can appear in a socket.io payload.
Absence of a field (JS `undefined`) is modelled by `Option` at use sites. -/
inductive JValue where
  | null : JValue
  | bool : Bool → JValue
  | num : Int → JValue
  | str : String → JValue
  | arr : List JValue → JValue
  | obj : List (String × JValue) → JValue

mutual

/-- Decidable equality on `JValue` (the nested inductive defeats `deriving`). -/
def decEqJValue : (a b : JValue) → Decidable (a = b)
  | .null, .null => .isTrue rfl
  | .null, .bool _ => .isFalse (fun h => nomatch h)
  | .null, .num _ => .isFalse (fun h => nomatch h)
  | .null, .str _ => .isFalse (fun h => nomatch h)
  | .null, .arr _ => .isFalse (fun h => nomatch h)
  | .null, .obj _ => .isFalse (fun h => nomatch h)
  | .bool _, .null => .isFalse (fun h => nomatch h)
  | .bool a, .bool b =>
      match decEq a b with
      | .isTrue h => .isTrue (h ▸ rfl)
      | .isFalse h => .isFalse (fun hh => h (by injection hh))
  | .bool _, .num _ => .isFalse (fun h => nomatch h)
  | .bool _, .str _ => .isFalse (fun h => nomatch h)
  | .bool _, .arr _ => .isFalse (fun h => nomatch h)
  | .bool _, .obj _ => .isFalse (fun h => nomatch h)
  | .num _, .null => .isFalse (fun h => nomatch h)
  | .num _, .bool _ => .isFalse (fun h => nomatch h)
  | .num a, .num b =>
      match decEq a b with
      | .isTrue h => .isTrue (h ▸ rfl)
      | .isFalse h => .isFalse (fun hh => h (by injection hh))
  | .num _, .str _ => .isFalse (fun h => nomatch h)
  | .num _, .arr _ => .isFalse (fun h => nomatch h)
  | .num _, .obj _ => .isFalse (fun h => nomatch h)
  | .str _, .null => .isFalse (fun h => nomatch h)
  | .str _, .bool _ => .isFalse (fun h => nomatch h)
  | .str _, .num _ => .isFalse (fun h => nomatch h)
  | .str a, .str b =>
      match decEq a b with
      | .isTrue h => .isTrue (h ▸ rfl)
      | .isFalse h => .isFalse (fun hh => h (by injection hh))
  | .str _, .arr _ => .isFalse (fun h => nomatch h)
  | .str _, .obj _ => .isFalse (fun h => nomatch h)
  | .arr _, .null => .isFalse (fun h => nomatch h)
  | .arr _, .bool _ => .isFalse (fun h => nomatch h)
  | .arr _, .num _ => .isFalse (fun h => nomatch h)
  | .arr _, .str _ => .isFalse (fun h => nomatch h)
  | .arr a, .arr b =>
      match decEqJList a b with
      | .isTrue h => .isTrue (h ▸ rfl)
      | .isFalse h => .isFalse (fun hh => h (by injection hh))
  | .arr _, .obj _ => .isFalse (fun h => nomatch h)
  | .obj _, .null => .isFalse (fun h => nomatch h)
  | .obj _, .bool _ => .isFalse (fun h => nomatch h)
  | .obj _, .num _ => .isFalse (fun h => nomatch h)
  | .obj _, .str _ => .isFalse (fun h => nomatch h)
  | .obj _, .arr _ => .isFalse (fun h => nomatch h)
  | .obj a, .obj b =>
      match decEqJFields a b with
      | .isTrue h => .isTrue (h ▸ rfl)
      | .isFalse h => .isFalse (fun hh => h (by injection hh))

/-- Decidable equality on lists of `JValue`. -/
def decEqJList : (a b : List JValue) → Decidable (a = b)
  | [], [] => .isTrue rfl
  | [], _ :: _ => .isFalse (fun h => nomatch h)
  | _ :: _, [] => .isFalse (fun h => nomatch h)
  | x :: xs, y :: ys =>
      match decEqJValue x y, decEqJList xs ys with
      | .isTrue h1, .isTrue h2 => .isTrue (h1 ▸ h2 ▸ rfl)
      | .isFalse h1, _ =>
          .isFalse (fun hh => h1 (by injection hh))
      | _, .isFalse h2 =>
          .isFalse (fun hh => h2 (by injection hh))

/-- Decidable equality on object field lists. -/
def decEqJFields : (a b : List (String × JValue)) → Decidable (a = b)
  | [], [] => .isTrue rfl
  | [], _ :: _ => .isFalse (fun h => nomatch h)
  | _ :: _, [] => .isFalse (fun h => nomatch h)
  | (k, v) :: as, (l, w) :: bs =>
      match decEq k l, decEqJValue v w, decEqJFields as bs with
      | .isTrue h1, .isTrue h2, .isTrue h3 => .isTrue (by rw [h1, h2, h3])
      | .isFalse h1, _, _ =>
          .isFalse (fun hh => by
            injection hh with hp ht; exact h1 (congrArg Prod.fst hp))
      | _, .isFalse h2, _ =>
          .isFalse (fun hh => by
            injection hh with hp ht; exact h2 (congrArg Prod.snd hp))
      | _, _, .isFalse h3 =>
          .isFalse (fun hh => by injection hh with hp ht; exact h3 ht)

end

instance : DecidableEq JValue := decEqJValue

/-- JS optional-chaining property access `payload?.k`: a value for key `k`
when the payload is an object holding it, otherwise `undefined` (`none`). -/
def jsGet (v : JValue) (k : String) : Option JValue :=
  match v with
  | .obj fields => List.lookup k fields
  | _ => none

/-- JS truthiness of a value: `null`, `false`, `0` and `""` are falsy. -/
def truthy : JValue → Bool
  | .null => false
  | .bool b => b
  | .num n => n != 0
  | .str s => s != ""
  | .arr _ => true
  | .obj _ => true

/-- JS truthiness of a possibly-absent value (`undefined` is falsy). -/
def truthyOpt : Option JValue → Bool
  | none => false
  | some v => truthy v

/-- The value of `typeof v === "string" ? v : undefined`. -/
def asString : Option JValue → Option String
  | some (.str s) => some s
  | _ => none

/-- Character-list comparison backing `strLeadsWith`. -/
def listLeadsWith : List Char → List Char → Bool
  | [], _ => true
  | _ :: _, [] => false
  | c :: cs, d :: ds => c == d && listLeadsWith cs ds

/-- Model of JS `s.startsWith(pre)`. (Defined from character lists so that
it evaluates in the kernel.) -/
def strLeadsWith (s pre : String) : Bool :=
  listLeadsWith pre.toList s.toList

/-- Model of JS `String.prototype.trim`: drop whitespace from both ends.
(Defined from character lists so that it evaluates in the kernel.) -/
def jsTrim (s : String) : String :=
  String.mk
    (((s.toList.dropWhile Char.isWhitespace).reverse.dropWhile
        Char.isWhitespace).reverse)

/-- JSON string escaping for `JSON.stringify` (covers the escapes the
controller can hit: quote, backslash, and common control characters). -/
def escapeJsonChar (c : Char) : String :=
  if c = '"' then "\\\""
  else if c = '\\' then "\\\\"
  else if c = '\n' then "\\n"
  else if c = '\t' then "\\t"
  else if c = '\r' then "\\r"
  else String.singleton c

/-- JSON serialization of a string, with surrounding quotes. -/
def escapeJsonString (s : String) : String :=
  "\"" ++ String.join (s.toList.map escapeJsonChar) ++ "\""

mutual

/-- Model of `JSON.stringify` on our JS values. -/
def jsonStringify : JValue → String
  | .null => "null"
  | .bool b => if b then "true" else "false"
  | .num n => toString n
  | .str s => escapeJsonString s
  | .arr xs => "[" ++ jsonStringifyList xs ++ "]"
  | .obj fs => "\x7b" ++ jsonStringifyFields fs ++ "\x7d"

/-- Comma-separated serialization of array elements. -/
def jsonStringifyList : List JValue → String
  | [] => ""
  | [x] => jsonStringify x
  | x :: y :: rest => jsonStringify x ++ "," ++ jsonStringifyList (y :: rest)

/-- Comma-separated serialization of object fields. -/
def jsonStringifyFields : List (String × JValue) → String
  | [] => ""
  | [kv] => escapeJsonString kv.1 ++ ":" ++ jsonStringify kv.2
  | kv :: kv2 :: rest =>
      escapeJsonString kv.1 ++ ":" ++ jsonStringify kv.2 ++ "," ++
        jsonStringifyFields (kv2 :: rest)

end

mutual

/-- Model of JS `String(v)` coercion, as performed by a template literal. -/
def jsToString : JValue → String
  | .null => "null"
  | .bool b => if b then "true" else "false"
  | .num n => toString n
  | .str s => s
  | .arr xs => jsToStringJoin xs
  | .obj _ => "[object Object]"

/-- `Array.prototype.toString`: elements joined with commas, `null`
rendering as the empty string inside an array. -/
def jsToStringJoin : List JValue → String
  | [] => ""
  | [.null] => ""
  | [x] => jsToString x
  | .null :: y :: rest => "," ++ jsToStringJoin (y :: rest)
  | x :: y :: rest => jsToString x ++ "," ++ jsToStringJoin (y :: rest)

end

/-- `stage` of the session: `"prompt" | "result"`. -/
inductive Stage where
  | prompt : Stage
  | result : Stage
deriving DecidableEq

/-- `role` of a chat message: `"user" | "agent"`. -/
inductive ChatRole where
  | user : ChatRole
  | agent : ChatRole
deriving DecidableEq

/-- A `ChatMessage` record: `{ id, role, text, downloadUrl? }`. -/
structure ChatMessage where
  id : String
  role : ChatRole
  text : String
  downloadUrl : Option String
deriving DecidableEq

/-- The session state held by the `useSocketRun` hook: the React `useState`
cells. `runId` stores the raw JS value kept by `setRunId` (`none` = null). -/
structure SessionState where
  connected : Bool
  stage : Stage
  runId : Option JValue
  progressMessages : List String
  messages : List ChatMessage
  summary : String
  downloadUrl : String
  error : Option String
  awaitingUser : Bool
deriving DecidableEq

/-- The initial state of every `useState` cell at mount. -/
def initialState : SessionState :=
  { connected := false
    stage := .prompt
    runId := none
    progressMessages := []
    messages := []
    summary := ""
    downloadUrl := ""
    error := none
    awaitingUser := false }

/-- Outbound socket events the controller can emit. -/
inductive OutEvent where
  | start_run (prompt : String) (author : Option String) (mc_version : Option String)
  | chat (run_id : JValue) (message : String)
deriving DecidableEq

/-- Handler for the inbound `connected` event. -/
def onConnected (s : SessionState) (_payload : JValue) : SessionState :=
  { s with connected := true }

/-- Handler for the inbound `error` event. -/
def onError (s : SessionState) (payload : JValue) : SessionState :=
  { s with error := some (match asString (jsGet payload "message") with
      | some m => m
      | none => "Unknown error") }

/-- Handler for the inbound `run_started` event:
`setRunId(payload?.run_id || null)`. -/
def onRunStarted (s : SessionState) (payload : JValue) : SessionState :=
  { s with runId :=
      if truthyOpt (jsGet payload "run_id") then jsGet payload "run_id" else none }

/-- The `appendAgent` helper: coerce `text` to a string
(`typeof text === "string" ? text : JSON.stringify(text ?? \x7b\x7d)`) and
append one agent message. `fid` models the `crypto.randomUUID()` result. -/
def appendAgent (fid : String) (text : JValue) (dl : Option String)
    (s : SessionState) : SessionState :=
  let t := match text with
    | .str u => u
    | .null => jsonStringify (.obj [])
    | v => jsonStringify v
  { s with messages :=
      s.messages ++ [{ id := fid, role := .agent, text := t, downloadUrl := dl }] }

/-- The `snapshot` list consulted by the progress handler:
`Array.isArray(payload?.snapshot) ? payload.snapshot : []`. -/
def snapOf (payload : JValue) : List JValue :=
  match jsGet payload "snapshot" with
  | some (.arr xs) => xs
  | _ => []

/-- `lines.find((l) => l.startsWith("node:"))`, with the JS `TypeError`
that `l.startsWith` raises on a non-string element made explicit:
`.error ()` when the search hits a non-string before finding a match. -/
def findNodeSnapshotLine : List JValue → Except Unit (Option String)
  | [] => .ok none
  | .str l :: rest =>
      if strLeadsWith l "node:" then .ok (some l)
      else findNodeSnapshotLine rest
  | _ :: _ => .error ()

/-- The snapshot fallback of the progress handler:
`lines.find(..) || lines[0] || "Working..."`, appended to the progress log;
the raise of `find` on a non-string element propagates. -/
def onProgressFallback (s0 : SessionState) (lines : List JValue) :
    SessionState × Bool :=
  match findNodeSnapshotLine lines with
  | .error _ => (s0, true)
  | .ok (some f) =>
      ({ s0 with progressMessages := s0.progressMessages ++ [f] }, false)
  | .ok none =>
      let readable := match lines.head? with
        | some v => if truthy v then jsToString v else "Working..."
        | none => "Working..."
      ({ s0 with progressMessages := s0.progressMessages ++ [readable] }, false)

/-- The non-message branch of the progress handler:
`nodeLine || (lines.find(..) || lines[0] || "Working...")`. -/
def onProgressSnap (s0 : SessionState) (payload : JValue) : SessionState × Bool :=
  match asString (jsGet payload "node") with
  | some n =>
      if n != "" then
        ({ s0 with progressMessages := s0.progressMessages ++ [n] }, false)
      else onProgressFallback s0 (snapOf payload)
  | none => onProgressFallback s0 (snapOf payload)

/-- Handler for the inbound `progress` event. Returns the committed state
and a flag that is `true` exactly when the handler raised a `TypeError`
(non-string snapshot element reached by the search). `setAwaitingUser(false)`
is issued before the derivation, so it is committed even on a raise; the
progress line is only appended when no raise occurs. -/
def onProgress (s : SessionState) (payload : JValue) : SessionState × Bool :=
  let s0 := { s with awaitingUser := false }
  match asString (jsGet payload "message") with
  | some m =>
      if m != "" && jsTrim m != "" then
        ({ s0 with progressMessages := s0.progressMessages ++ [m] }, false)
      else onProgressSnap s0 payload
  | none => onProgressSnap s0 payload

/-- Handler for the inbound `mod_ready` event, parameterized by the
configured backend base URL and the fresh message id. -/
def onModReady (backendUrl fid : String) (s : SessionState) (payload : JValue) :
    SessionState :=
  let sumStr := match jsGet payload "summary" with
    | some (.str u) => u
    | some .null => jsonStringify (.obj [])
    | some v => jsonStringify v
    | none => jsonStringify (.obj [])
  let dlv := jsGet payload "download_url"
  let fullDl :=
    if truthyOpt dlv then backendUrl ++ jsToString (dlv.getD .null) else ""
  let s1 := { s with summary := sumStr, downloadUrl := fullDl }
  let s2 := appendAgent fid (.str sumStr)
      (if fullDl != "" then some fullDl else none) s1
  { s2 with stage := .result, awaitingUser := true }

/-- Handler for the inbound `chat_response` event. -/
def onChatResponse (fid : String) (s : SessionState) (payload : JValue) :
    SessionState :=
  let msg := match asString (jsGet payload "message") with
    | some m => m
    | none => ""
  let s1 := if msg != "" then appendAgent fid (.str msg) none s else s
  { s1 with awaitingUser := true }

/-- The `startRun` intent: no-op on a blank prompt, otherwise reset the
per-run state, record the raw prompt as the single user message, and emit
one `start_run` event. -/
def startRun (fid : String) (s : SessionState) (prompt : String)
    (mcVersion author : Option String) : SessionState × List OutEvent :=
  if jsTrim prompt = "" then (s, [])
  else
    ({ s with
        progressMessages := []
        summary := ""
        downloadUrl := ""
        messages := [{ id := fid, role := .user, text := prompt, downloadUrl := none }]
        error := none
        stage := .result
        awaitingUser := false },
     [.start_run prompt author mcVersion])

/-- The `sendChat` intent: no-op on a blank message, otherwise append the
trimmed text as a user message, clear the progress log, mark busy, and —
only when `runId` is truthy — emit one `chat` event. -/
def sendChat (fid : String) (s : SessionState) (message : String) :
    SessionState × List OutEvent :=
  let text := jsTrim message
  if text = "" then (s, [])
  else
    let s1 := { s with
      messages :=
        s.messages ++ [{ id := fid, role := .user, text := text, downloadUrl := none }]
      progressMessages := []
      awaitingUser := false }
    if truthyOpt s.runId then (s1, [.chat (s.runId.getD .null) text])
    else (s1, [])

/-- Whether a JS value is a string. -/
def isStr : JValue → Bool
  | .str _ => true
  | _ => false

/-- Specification-side derivation for the snapshot clauses of the
progress-line policy: the first snapshot element starting with `"node:"`,
else the first snapshot element when it is a truthy value, else the literal
`"Working..."`; `none` when the search raises on a non-string element. -/
def deriveSnapLine (lines : List JValue) : Option String :=
  match findNodeSnapshotLine lines with
  | .error _ => none
  | .ok (some f) => some f
  | .ok none =>
      match lines.head? with
      | some v => some (if truthy v then jsToString v else "Working...")
      | none => some "Working..."

/-- Specification-side derivation for the node clause of the policy: the
`node` field when it is a non-empty string, else the snapshot clauses. -/
def deriveNodeLine (payload : JValue) : Option String :=
  match asString (jsGet payload "node") with
  | some n => if n != "" then some n else deriveSnapLine (snapOf payload)
  | none => deriveSnapLine (snapOf payload)

/-- Specification-side progress-line derivation policy, in priority order:
(1) the `message` field when it is a string that is non-empty after
trimming (the raw, untrimmed text is the line); (2) the `node` field when
it is a non-empty string; (3) the first element of `snapshot` starting with
`"node:"`; (4) the first element of `snapshot` when truthy; (5) the literal
`"Working..."`. `none` models the `TypeError` raised when the snapshot
search reaches a non-string element. -/
def deriveProgressLine (payload : JValue) : Option String :=
  match asString (jsGet payload "message") with
  | some m => if jsTrim m != "" then some m else deriveNodeLine payload
  | none => deriveNodeLine payload

/-- A session state in which a run id has already been assigned. -/
def stateWithRun : SessionState :=
  { initialState with runId := some (.str "r1") }

/-- The condition guarding the message clause of the progress handler,
`message && message.trim()`, holds exactly when the trim is non-empty. -/
theorem message_cond (m : String) : (m != "" && jsTrim m != "") = (jsTrim m != "") := by
  by_cases h : m = ""
  · subst h; decide
  · simp [h]

/-- The snapshot fallback only ever touches the progress log. -/
theorem onProgressFallback_shape (s0 : SessionState) (lines : List JValue) :
    ∃ pm b, onProgressFallback s0 lines = ({ s0 with progressMessages := pm }, b) := by
  unfold onProgressFallback
  split
  · exact ⟨_, _, rfl⟩
  · exact ⟨_, _, rfl⟩
  · exact ⟨_, _, rfl⟩

/-- The non-message branch only ever touches the progress log. -/
theorem onProgressSnap_shape (s0 : SessionState) (p : JValue) :
    ∃ pm b, onProgressSnap s0 p = ({ s0 with progressMessages := pm }, b) := by
  unfold onProgressSnap
  split
  · split
    · exact ⟨_, _, rfl⟩
    · exact onProgressFallback_shape s0 (snapOf p)
  · exact onProgressFallback_shape s0 (snapOf p)

/-- The progress handler only ever clears `awaitingUser` and extends the
progress log; every other state component is untouched. -/
theorem onProgress_shape (s : SessionState) (p : JValue) :
    ∃ pm b, onProgress s p =
      ({ s with awaitingUser := false, progressMessages := pm }, b) := by
  unfold onProgress
  split
  · split
    · exact ⟨_, _, rfl⟩
    · exact onProgressSnap_shape _ p
  · exact onProgressSnap_shape _ p

/-- The snapshot fallback follows the specification-side snapshot clauses. -/
theorem onProgressFallback_derive (s0 : SessionState) (lines : List JValue) :
    (∀ line, deriveSnapLine lines = some line →
        onProgressFallback s0 lines =
          ({ s0 with progressMessages := s0.progressMessages ++ [line] }, false)) ∧
    (deriveSnapLine lines = none → onProgressFallback s0 lines = (s0, true)) := by
  unfold onProgressFallback deriveSnapLine
  cases hf : findNodeSnapshotLine lines with
  | error e => exact ⟨fun line h => by simp at h, fun _ => rfl⟩
  | ok o =>
      cases o with
      | some f =>
          exact ⟨fun line h => by simp at h; subst h; rfl, fun h => by simp at h⟩
      | none =>
          cases hh : lines.head? with
          | some v =>
              exact ⟨fun line h => by simp [hh] at h; subst h; rfl,
                     fun h => by simp [hh] at h⟩
          | none =>
              exact ⟨fun line h => by simp [hh] at h; subst h; rfl,
                     fun h => by simp [hh] at h⟩

/-- The non-message branch follows the node clause then the snapshot
clauses of the specification-side policy. -/
theorem onProgressSnap_derive (s0 : SessionState) (p : JValue) :
    (∀ line, deriveNodeLine p = some line →
        onProgressSnap s0 p =
          ({ s0 with progressMessages := s0.progressMessages ++ [line] }, false)) ∧
    (deriveNodeLine p = none → onProgressSnap s0 p = (s0, true)) := by
  unfold onProgressSnap deriveNodeLine
  cases hn : asString (jsGet p "node") with
  | some n =>
      by_cases hne : n = ""
      · subst hne
        simpa using onProgressFallback_derive s0 (snapOf p)
      · refine ⟨fun line h => ?_, fun h => ?_⟩
        · simp [hne] at h; subst h; simp [hne]
        · simp [hne] at h
  | none => exact onProgressFallback_derive s0 (snapOf p)

/-- C1: for every non-blank prompt P, `startRun` clears the progress log,
the stored summary and the download URL, replaces the message log with
exactly one user `ChatMessage` carrying the raw (untrimmed) prompt text,
clears the error, sets the stage to `result` and `awaitingUser` to `false`,
leaves every other component (in particular `connected` and `runId`)
unchanged, and emits exactly one outbound `start_run` event with payload
`{prompt: P, author, mc_version: mcVersion}`. -/
theorem startRun_nonblank_spec (fid : String) (s : SessionState)
    (prompt : String) (mcVersion author : Option String)
    (h : jsTrim prompt ≠ "") :
    startRun fid s prompt mcVersion author =
      ({ connected := s.connected
         stage := .result
         runId := s.runId
         progressMessages := []
         messages := [{ id := fid, role := .user, text := prompt, downloadUrl := none }]
         summary := ""
         downloadUrl := ""
         error := none
         awaitingUser := false },
       [OutEvent.start_run prompt author mcVersion]) := by
  simp [startRun, h]

/-- Witness for C1 at the prompt `"Build a mod"` on the initial state. -/
theorem startRun_nonblank_spec_instance :
    jsTrim "Build a mod" ≠ "" ∧
    startRun "m1" initialState "Build a mod" (some "1.20.1") (some "alex") =
      ({ connected := false
         stage := .result
         runId := none
         progressMessages := []
         messages := [{ id := "m1", role := .user, text := "Build a mod", downloadUrl := none }]
         summary := ""
         downloadUrl := ""
         error := none
         awaitingUser := false },
       [OutEvent.start_run "Build a mod" (some "alex") (some "1.20.1")]) :=
  ⟨by decide,
   startRun_nonblank_spec "m1" initialState "Build a mod" (some "1.20.1")
     (some "alex") (by decide)⟩

/-- C2 (counterexample): the claim derives the progress line from the
`node` field whenever it is present; but for the payload
`{node: ""}` — where `node` is present with the empty string — the handler
appends the fallback `"Working..."`, not `""`. -/
theorem onProgress_empty_node_cex :
    jsGet (JValue.obj [("node", JValue.str "")]) "node" = some (JValue.str "") ∧
    (onProgress initialState (JValue.obj [("node", JValue.str "")])).1.progressMessages
      = ["Working..."] ∧
    ("Working..." : String) ≠ "" := by
  refine ⟨rfl, rfl, by decide⟩

/-- The progress handler refines the specification-side derivation
`deriveProgressLine`: a derived line is appended exactly once, and a raise
leaves the progress log untouched. -/
theorem onProgress_derive (s : SessionState) (p : JValue) :
    (∀ line, deriveProgressLine p = some line →
        onProgress s p =
          ({ s with
              awaitingUser := false
              progressMessages := s.progressMessages ++ [line] }, false)) ∧
    (deriveProgressLine p = none →
        onProgress s p = ({ s with awaitingUser := false }, true)) := by
  refine ⟨?_, ?_⟩
  · intro line h
    unfold onProgress
    unfold deriveProgressLine at h
    cases hm : asString (jsGet p "message") with
    | some m =>
        rw [hm] at h
        simp only [message_cond]
        by_cases ht : jsTrim m = ""
        · simp only [ht] at h ⊢
          simp at h ⊢
          exact (onProgressSnap_derive _ p).1 line h
        · simp [ht] at h ⊢
          subst h; rfl
    | none =>
        rw [hm] at h
        exact (onProgressSnap_derive _ p).1 line h
  · intro h
    unfold onProgress
    unfold deriveProgressLine at h
    cases hm : asString (jsGet p "message") with
    | some m =>
        rw [hm] at h
        simp only [message_cond]
        by_cases ht : jsTrim m = ""
        · simp only [ht] at h ⊢
          simp at h ⊢
          exact (onProgressSnap_derive _ p).2 h
        · simp [ht] at h
    | none =>
        rw [hm] at h
        exact (onProgressSnap_derive _ p).2 h

/-- C2 (amended): for every inbound progress event, `awaitingUser` becomes
`false`; and whenever the derivation does not raise, exactly one line is
appended to the progress log, derived in priority order: (1) the raw
`message` field if it is a string that is non-empty after trimming;
(2) the `node` field if it is a non-empty string; (3) the first element of
`snapshot` starting with `"node:"`; (4) the first element of `snapshot` if
truthy; (5) the literal `"Working..."`. When the derivation raises (see
C7), no line is appended. -/
theorem onProgress_line_policy (s : SessionState) (p : JValue) :
    ((onProgress s p).1).awaitingUser = false ∧
    (∀ line, deriveProgressLine p = some line →
        onProgress s p =
          ({ s with
              awaitingUser := false
              progressMessages := s.progressMessages ++ [line] }, false)) ∧
    (deriveProgressLine p = none →
        onProgress s p = ({ s with awaitingUser := false }, true)) := by
  refine ⟨?_, (onProgress_derive s p).1, (onProgress_derive s p).2⟩
  obtain ⟨pm, b, hs⟩ := onProgress_shape s p
  rw [hs]

/-- Witness for C2 at the payload `{snapshot: ["node: Plan", "other"]}`:
the derived line is exactly `"node: Plan"`. -/
theorem onProgress_line_policy_instance :
    deriveProgressLine
        (JValue.obj [("snapshot", JValue.arr [JValue.str "node: Plan", JValue.str "other"])])
      = some "node: Plan" ∧
    onProgress initialState
        (JValue.obj [("snapshot", JValue.arr [JValue.str "node: Plan", JValue.str "other"])])
      = ({ initialState with
            awaitingUser := false
            progressMessages := ["node: Plan"] }, false) :=
  ⟨by decide,
   (onProgress_line_policy initialState
      (JValue.obj [("snapshot", JValue.arr [JValue.str "node: Plan", JValue.str "other"])])).2.1
     "node: Plan" (by decide)⟩

/-- C5: for every non-blank message M, `sendChat` with `runId` unset
appends one user message with the trimmed text, clears the progress log,
sets `awaitingUser` to `false`, leaves everything else (in particular the
error) unchanged, and emits no outbound event. -/
theorem sendChat_without_runId (fid : String) (s : SessionState) (msg : String)
    (h1 : jsTrim msg ≠ "") (h2 : s.runId = none) :
    sendChat fid s msg =
      ({ s with
          messages := s.messages ++
            [{ id := fid, role := .user, text := jsTrim msg, downloadUrl := none }]
          progressMessages := []
          awaitingUser := false }, []) := by
  simp [sendChat, h1, h2, truthyOpt]

/-- Witness for C5: `sendChat " hello "` before any `run_started` event
appends `"hello"` and emits nothing. -/
theorem sendChat_without_runId_instance :
    jsTrim " hello " ≠ "" ∧ initialState.runId = none ∧
    sendChat "u1" initialState " hello " =
      ({ initialState with
          messages := [{ id := "u1", role := .user, text := "hello", downloadUrl := none }]
          progressMessages := []
          awaitingUser := false }, []) :=
  ⟨by decide, rfl, sendChat_without_runId "u1" initialState " hello " (by decide) rfl⟩

/-- C9: a blank (whitespace-only) input makes both `startRun` and
`sendChat` leave the whole session state unchanged and emit nothing. -/
theorem blank_input_noop (fid : String) (s : SessionState) (input : String)
    (mcVersion author : Option String) (h : jsTrim input = "") :
    startRun fid s input mcVersion author = (s, []) ∧
    sendChat fid s input = (s, []) := by
  constructor
  · simp [startRun, h]
  · simp [sendChat, h]

/-- Witness for C9 at the whitespace-only input `"   "`. -/
theorem blank_input_noop_instance :
    jsTrim "   " = "" ∧
    startRun "w1" stateWithRun "   " none none = (stateWithRun, []) ∧
    sendChat "w1" stateWithRun "   " = (stateWithRun, []) :=
  ⟨by decide,
   (blank_input_noop "w1" stateWithRun "   " none none (by decide)).1,
   (blank_input_noop "w1" stateWithRun "   " none none (by decide)).2⟩

/-- C10: `startRun` never touches `runId`; consequently a `sendChat`
issued after a second `startRun`, but before the new run's `run_started`
event arrives, emits a `chat` event still carrying the previous run's
`run_id`. -/
theorem startRun_keeps_runId (fid fid2 : String) (s : SessionState)
    (prompt msg : String) (mcVersion author : Option String)
    (h1 : jsTrim prompt ≠ "") (h2 : jsTrim msg ≠ "")
    (h3 : truthyOpt s.runId = true) :
    ((startRun fid s prompt mcVersion author).1).runId = s.runId ∧
    (sendChat fid2 (startRun fid s prompt mcVersion author).1 msg).2
      = [OutEvent.chat (s.runId.getD .null) (jsTrim msg)] := by
  have hrun : (startRun fid s prompt mcVersion author).1 =
      { s with
          progressMessages := []
          summary := ""
          downloadUrl := ""
          messages := [{ id := fid, role := .user, text := prompt, downloadUrl := none }]
          error := none
          stage := .result
          awaitingUser := false } := by
    simp [startRun, h1]
  refine ⟨by rw [hrun], ?_⟩
  rw [hrun]
  simp [sendChat, h2, h3]

/-- Witness for C10: after a second `startRun` on a state holding run id
`"r1"`, a follow-up chat still carries `"r1"`. -/
theorem startRun_keeps_runId_instance :
    jsTrim "second mod" ≠ "" ∧ jsTrim "make it blue" ≠ "" ∧
    truthyOpt stateWithRun.runId = true ∧
    ((startRun "m2" stateWithRun "second mod" none none).1).runId
      = some (JValue.str "r1") ∧
    (sendChat "m3" (startRun "m2" stateWithRun "second mod" none none).1
        "make it blue").2
      = [OutEvent.chat (JValue.str "r1") "make it blue"] :=
  ⟨by decide, by decide, rfl,
   (startRun_keeps_runId "m2" "m3" stateWithRun "second mod" "make it blue"
      none none (by decide) (by decide) rfl).1,
   (startRun_keeps_runId "m2" "m3" stateWithRun "second mod" "make it blue"
      none none (by decide) (by decide) rfl).2⟩

/-- An agent message predating the current operation, for the C6 scenario. -/
def oldMsg : ChatMessage :=
  { id := "a0", role := .agent, text := "old", downloadUrl := none }

/-- A session state already holding one chat message. -/
def stateWithOldMsg : SessionState :=
  { initialState with messages := [oldMsg] }

/-- C3 (counterexample): the claim makes the stored download URL the base
URL concatenated with `download_url` whenever the field is present; but
for the present-but-empty path `""` the handler stores `""`, not the base
URL. -/
theorem onModReady_empty_download_cex :
    jsGet (JValue.obj [("summary", JValue.str "Done"), ("download_url", JValue.str "")])
        "download_url" = some (JValue.str "") ∧
    (onModReady "http://localhost:5001" "a1" initialState
        (JValue.obj [("summary", JValue.str "Done"), ("download_url", JValue.str "")])).downloadUrl
      = "" ∧
    ("" : String) ≠ "http://localhost:5001" ++ "" := by
  exact ⟨by decide, by decide, by decide⟩

/-- C3 (amended): for every `mod_ready` payload, the stored summary is the
`summary` field when it is a string and its JSON serialization otherwise
(absent and `null` serialize as the empty object); the stored download URL
is the backend base concatenated with the string coercion of
`download_url` when that field is present and truthy (for a string: present
and non-empty), and the empty string otherwise; one agent message is
appended carrying the summary text and, when non-empty, the download URL;
the stage becomes `result` and `awaitingUser` becomes `true`. -/
theorem onModReady_spec (backendUrl fid : String) (s : SessionState)
    (p : JValue) (sumStr fullDl : String)
    (hsum : sumStr = (match jsGet p "summary" with
        | some (.str u) => u
        | some .null => jsonStringify (.obj [])
        | some v => jsonStringify v
        | none => jsonStringify (.obj [])))
    (hdl : fullDl = (if truthyOpt (jsGet p "download_url")
        then backendUrl ++ jsToString ((jsGet p "download_url").getD .null)
        else "")) :
    onModReady backendUrl fid s p =
      { s with
          summary := sumStr
          downloadUrl := fullDl
          messages := s.messages ++
            [{ id := fid, role := .agent, text := sumStr,
                downloadUrl := if fullDl != "" then some fullDl else none }]
          stage := .result
          awaitingUser := true } := by
  subst hsum hdl
  rfl

/-- Witness for C3 at `mod_ready` with summary `"Done"` and path
`"/files/x.zip"` against base `"http://localhost:5001"`. -/
theorem onModReady_spec_instance :
    onModReady "http://localhost:5001" "a1" initialState
        (JValue.obj [("summary", JValue.str "Done"),
            ("download_url", JValue.str "/files/x.zip")]) =
      { initialState with
          summary := "Done"
          downloadUrl := "http://localhost:5001/files/x.zip"
          messages := [{ id := "a1", role := .agent, text := "Done",
                          downloadUrl := some "http://localhost:5001/files/x.zip" }]
          stage := .result
          awaitingUser := true } :=
  onModReady_spec "http://localhost:5001" "a1" initialState
    (JValue.obj [("summary", JValue.str "Done"),
        ("download_url", JValue.str "/files/x.zip")])
    "Done" "http://localhost:5001/files/x.zip" (by decide) (by decide)

/-- C4: `runId` is written only by the `run_started` handler — every other
handler and both intents leave it unchanged, so within one run it is set
exactly at that run's single `run_started` event and never overwritten —
and no outbound `chat` event is ever emitted while `runId` is unset. -/
theorem runId_write_discipline (backendUrl fid : String) (s : SessionState)
    (p : JValue) (prompt msg : String) (mcVersion author : Option String) :
    (onConnected s p).runId = s.runId ∧
    (onError s p).runId = s.runId ∧
    ((onProgress s p).1).runId = s.runId ∧
    (onModReady backendUrl fid s p).runId = s.runId ∧
    (onChatResponse fid s p).runId = s.runId ∧
    ((startRun fid s prompt mcVersion author).1).runId = s.runId ∧
    ((sendChat fid s msg).1).runId = s.runId ∧
    (∀ rid text, OutEvent.chat rid text ∈ (sendChat fid s msg).2 →
        s.runId ≠ none) := by
  refine ⟨rfl, rfl, ?_, rfl, ?_, ?_, ?_, ?_⟩
  · obtain ⟨pm, b, hs⟩ := onProgress_shape s p
    rw [hs]
  · simp only [onChatResponse, appendAgent]
    split <;> rfl
  · unfold startRun
    split <;> rfl
  · by_cases ht : jsTrim msg = ""
    · simp [sendChat, ht]
    · by_cases hr : truthyOpt s.runId <;> simp [sendChat, ht, hr]
  · intro rid text hmem hnone
    by_cases ht : jsTrim msg = ""
    · simp [sendChat, ht] at hmem
    · simp [sendChat, ht, hnone, truthyOpt] at hmem

/-- Witness for C4: on a state holding run id `"r1"`, the emitted chat
event implies `runId` is set; and the `connected` handler preserves it. -/
theorem runId_write_discipline_instance :
    stateWithRun.runId ≠ none ∧
    (onConnected stateWithRun .null).runId = stateWithRun.runId :=
  ⟨(runId_write_discipline "http://localhost:5001" "f1" stateWithRun .null
      "x" "hi" none none).2.2.2.2.2.2.2 (JValue.str "r1") "hi" (by decide),
   (runId_write_discipline "http://localhost:5001" "f1" stateWithRun .null
      "x" "hi" none none).1⟩

/-- C6 (counterexample): the message log is not append-only across every
operation — `startRun` on a non-blank prompt replaces the log, dropping
the pre-existing message. -/
theorem startRun_replaces_log_cex :
    oldMsg ∈ stateWithOldMsg.messages ∧
    oldMsg ∉ ((startRun "f2" stateWithOldMsg "hello" none none).1).messages := by
  decide

/-- C6 (amended): every inbound event handler and `sendChat` are
append-only on the message log — every message present before is still
present, unmutated, in the same relative order, as a prefix of the new
log — while `startRun` either leaves the log unchanged (blank prompt) or
replaces it with exactly one fresh user message. -/
theorem messages_append_only (backendUrl fid : String) (s : SessionState)
    (p : JValue) (msg prompt : String) (mcVersion author : Option String) :
    (onConnected s p).messages = s.messages ∧
    (onError s p).messages = s.messages ∧
    (onRunStarted s p).messages = s.messages ∧
    ((onProgress s p).1).messages = s.messages ∧
    (∃ r, (onModReady backendUrl fid s p).messages = s.messages ++ r) ∧
    (∃ r, (onChatResponse fid s p).messages = s.messages ++ r) ∧
    (∃ r, ((sendChat fid s msg).1).messages = s.messages ++ r) ∧
    (((startRun fid s prompt mcVersion author).1).messages = s.messages ∨
      ((startRun fid s prompt mcVersion author).1).messages
        = [{ id := fid, role := .user, text := prompt, downloadUrl := none }]) := by
  refine ⟨rfl, rfl, rfl, ?_, ⟨_, rfl⟩, ?_, ?_, ?_⟩
  · obtain ⟨pm, b, hs⟩ := onProgress_shape s p
    rw [hs]
  · simp only [onChatResponse, appendAgent]
    split
    · exact ⟨_, rfl⟩
    · exact ⟨[], by simp⟩
  · by_cases ht : jsTrim msg = ""
    · exact ⟨[], by simp [sendChat, ht]⟩
    · by_cases hr : truthyOpt s.runId <;>
        exact ⟨[{ id := fid, role := .user, text := jsTrim msg, downloadUrl := none }],
          by simp [sendChat, ht, hr]⟩
  · by_cases hp : jsTrim prompt = ""
    · left; simp [startRun, hp]
    · right; simp [startRun, hp]

/-- C7 (counterexample): progress derivation is not total — a payload whose
snapshot holds a non-string element makes the handler raise a `TypeError`
(the element has no `startsWith`), and no line is appended. -/
theorem onProgress_nonstring_snapshot_cex :
    (onProgress initialState
        (JValue.obj [("snapshot", JValue.arr [JValue.num 42])])).2 = true ∧
    (onProgress initialState
        (JValue.obj [("snapshot", JValue.arr [JValue.num 42])])).1.progressMessages
      = [] := by
  decide

/-- The snapshot search succeeds on lists of strings. -/
theorem findNode_ok_of_strings (xs : List JValue)
    (h : ∀ v ∈ xs, isStr v = true) :
    ∃ o, findNodeSnapshotLine xs = .ok o := by
  induction xs with
  | nil => exact ⟨none, rfl⟩
  | cons x rest ih =>
      have hx := h x (List.mem_cons_self x rest)
      rcases x with _ | b | n | l | a | o
      · simp [isStr] at hx
      · simp [isStr] at hx
      · simp [isStr] at hx
      · by_cases hl : strLeadsWith l "node:"
        · exact ⟨some l, by simp [findNodeSnapshotLine, hl]⟩
        · obtain ⟨o, ho⟩ := ih (fun v hv => h v (List.mem_cons_of_mem _ hv))
          exact ⟨o, by simp [findNodeSnapshotLine, hl, ho]⟩
      · simp [isStr] at hx
      · simp [isStr] at hx

/-- The specification-side derivation yields a line on string snapshots. -/
theorem deriveProgress_some_of_strings (p : JValue)
    (h : ∀ v ∈ snapOf p, isStr v = true) :
    ∃ line, deriveProgressLine p = some line := by
  have hsnap : ∃ line, deriveSnapLine (snapOf p) = some line := by
    obtain ⟨o, ho⟩ := findNode_ok_of_strings (snapOf p) h
    cases o with
    | some f => exact ⟨f, by simp [deriveSnapLine, ho]⟩
    | none =>
        cases hh : (snapOf p).head? with
        | some v =>
            exact ⟨if truthy v then jsToString v else "Working...",
              by simp [deriveSnapLine, ho, hh]⟩
        | none => exact ⟨"Working...", by simp [deriveSnapLine, ho, hh]⟩
  have hnode : ∃ line, deriveNodeLine p = some line := by
    unfold deriveNodeLine
    cases asString (jsGet p "node") with
    | some n =>
        by_cases hn : n = ""
        · simpa [hn] using hsnap
        · exact ⟨n, by simp [hn]⟩
    | none => exact hsnap
  unfold deriveProgressLine
  cases asString (jsGet p "message") with
  | some m =>
      by_cases hm : jsTrim m = ""
      · simpa [hm] using hnode
      · exact ⟨m, by simp [hm]⟩
  | none => exact hnode

/-- C7 (amended): for every progress payload whose snapshot elements are
all strings (in particular whenever the snapshot is absent or not an
array), the handler completes without raising and appends exactly one
string line to the progress log; a non-string snapshot element reached by
the search instead raises a `TypeError` and appends nothing. -/
theorem onProgress_totality (s : SessionState) (p : JValue)
    (h : ∀ v ∈ snapOf p, isStr v = true) :
    (onProgress s p).2 = false ∧
    ∃ line, ((onProgress s p).1).progressMessages
      = s.progressMessages ++ [line] := by
  obtain ⟨line, hl⟩ := deriveProgress_some_of_strings p h
  have he := (onProgress_derive s p).1 line hl
  rw [he]
  exact ⟨rfl, ⟨line, rfl⟩⟩

/-- Witness for C7 at the all-string snapshot `["a", "node: B"]`. -/
theorem onProgress_totality_instance :
    (∀ v ∈ snapOf (JValue.obj
        [("snapshot", JValue.arr [JValue.str "a", JValue.str "node: B"])]),
      isStr v = true) ∧
    (onProgress initialState (JValue.obj
        [("snapshot", JValue.arr [JValue.str "a", JValue.str "node: B"])])).2 = false ∧
    ∃ line, ((onProgress initialState (JValue.obj
        [("snapshot", JValue.arr [JValue.str "a", JValue.str "node: B"])])).1).progressMessages
      = initialState.progressMessages ++ [line] :=
  ⟨by decide,
   (onProgress_totality initialState
      (JValue.obj [("snapshot", JValue.arr [JValue.str "a", JValue.str "node: B"])])
      (by decide)).1,
   (onProgress_totality initialState
      (JValue.obj [("snapshot", JValue.arr [JValue.str "a", JValue.str "node: B"])])
      (by decide)).2⟩

/-- C8: a `chat_response` whose `message` field is a non-empty string
appends exactly one agent message with that text and no download link and
sets `awaitingUser` to `true`; when the field is absent, empty or not a
string, nothing is appended but `awaitingUser` still becomes `true`. -/
theorem onChatResponse_spec (fid : String) (s : SessionState) (p : JValue) :
    onChatResponse fid s p =
      (match asString (jsGet p "message") with
       | some m =>
           if m != "" then
             { s with
                 messages := s.messages ++
                   [{ id := fid, role := .agent, text := m, downloadUrl := none }]
                 awaitingUser := true }
           else { s with awaitingUser := true }
       | none => { s with awaitingUser := true }) := by
  unfold onChatResponse appendAgent
  cases asString (jsGet p "message") with
  | some m =>
      by_cases hm : m = ""
      · simp [hm]
      · simp [hm]
  | none => rfl

end MineModder
